import Mathlib

/-!
Verification development for a UI runtime's event abstraction layer:
a poolable synthetic-event object model (src/packages/events/SyntheticEvent.js)
and a reentrant batching coordinator (the generic batching module).

The JavaScript source is shallowly embedded: JS values are a small inductive
type with JS truthiness, objects with string-keyed own properties are
association lists (property write = overwrite-first-occurrence-or-append,
matching JS own-property assignment order), mutation is explicit state
passing, and code that can throw returns `Except`.
-/

/-- Model of the JavaScript values the event layer manipulates. -/
inductive JSValue where
  | undefined
  | null
  | bool (b : Bool)
  | num (n : Int)
  | str (s : String)
deriving DecidableEq, Repr

/-- JS truthiness of a value (`if (v)`), restricted to the modelled values. -/
def truthy : JSValue → Bool
  | .undefined => false
  | .null => false
  | .bool b => b
  | .num n => n != 0
  | .str s => s != ""

/-- JS loose equality with null (`v == null`): true exactly on null/undefined. -/
def isNullish : JSValue → Bool
  | .undefined => true
  | .null => true
  | _ => false

/-- JS `typeof` for the modelled values.  A standard engine never yields
the IE-only tag "unknown", which the source's legacy guards test for. -/
def jsTypeof : JSValue → String
  | .undefined => "undefined"
  | .null => "object"
  | .bool _ => "boolean"
  | .num _ => "number"
  | .str _ => "string"

/-- First-match lookup in an association list (JS own-property read order). -/
def lookupEntry {α : Type} : List (String × α) → String → Option α
  | [], _ => none
  | (k', v') :: rest, k => if k' = k then some v' else lookupEntry rest k

/-- JS own-property write: overwrite the (first) existing entry in place,
keeping its position, or append a new entry at the end. -/
def setEntry {α : Type} : List (String × α) → String → α → List (String × α)
  | [], k, v => [(k, v)]
  | (k', v') :: rest, k, v =>
    if k' = k then (k, v) :: rest else (k', v') :: setEntry rest k v

/-- A native browser event: its own properties, whether it carries the
standard `preventDefault` / `stopPropagation` methods, and bookkeeping flags
recording whether those methods have been invoked (observable effects). -/
structure NativeEvt where
  fields : List (String × JSValue)
  hasPreventDefault : Bool
  hasStopPropagation : Bool
  preventDefaultCalled : Bool
  stopPropagationCalled : Bool
deriving DecidableEq, Repr

/-- Read an own property of a native event, absent properties read as
`undefined`. -/
def getFieldD (e : NativeEvt) (k : String) : JSValue :=
  (lookupEntry e.fields k).getD .undefined

/-- Read a property through a possibly-null reference: JS throws a TypeError
when reading a property of null/undefined. -/
def nativeGet (ne : Option NativeEvt) (k : String) : Except String JSValue :=
  match ne with
  | none => .error "TypeError: cannot read a property of null"
  | some e => .ok (getFieldD e k)

/-- A normalization rule of an interface descriptor table: `null` in the
source (copy the native field verbatim, with the `target` special case) or a
normalization function of the native event.  A function is modelled on the
possibly-null native-event reference and may fail, exactly as a JS function
body reading properties of its argument may throw. -/
inductive NormRule where
  | copy
  | fn (f : Option NativeEvt → Except String JSValue)

/-- Fixed stand-in for `Date.now()` (the model is deterministic). -/
def dateNow : Int := 0

/-- The source's `currentTarget` rule: ignores the native event, yields null. -/
def currentTargetRule : Option NativeEvt → Except String JSValue :=
  fun _ => .ok .null

/-- The source's `timeStamp` rule: `event.timeStamp || Date.now()`. -/
def timeStampRule : Option NativeEvt → Except String JSValue :=
  fun ne => do
    let v ← nativeGet ne "timeStamp"
    pure (if truthy v then v else .num dateNow)

/-- The base descriptor table `EventInterface` of the source, in declaration
order. -/
def EventInterface : List (String × NormRule) :=
  [("type", .copy),
   ("target", .copy),
   ("currentTarget", .fn currentTargetRule),
   ("eventPhase", .copy),
   ("bubbles", .copy),
   ("cancelable", .copy),
   ("timeStamp", .fn timeStampRule),
   ("defaultPrevented", .copy),
   ("isTrusted", .copy)]

/-- An event class: its prototype-chain identity (head = the class's own
tag, tail = the ancestors' tags down to the base class) and its descriptor
table `Interface`. -/
structure SEClassT where
  chain : List Nat
  iface : List (String × NormRule)

/-- JS `instanceof`: the class's prototype occurs in the instance's
prototype chain, i.e. the class's chain is a suffix of the instance class's
chain. -/
def instanceOf (cls : SEClassT) (C : SEClassT) : Bool :=
  C.chain.isSuffixOf cls.chain

/-- `Object.assign({}, b, d)`: start from `b`'s entries in order and write
each entry of `d` over it left to right (existing keys keep their position,
new keys append). -/
def assignTable (b d : List (String × NormRule)) : List (String × NormRule) :=
  d.foldl (fun acc kv => setEntry acc kv.1 kv.2) b

/-- `SyntheticEvent.extend(Interface)`: a new class whose prototype chain
extends the parent's by a fresh tag and whose descriptor table is
`Object.assign({}, Super.Interface, Interface)`.  The new class receives its
own empty event pool (pools are modelled as separate `PoolState` values, one
per class). -/
def extendEventClass (C : SEClassT) (iface : List (String × NormRule)) (tag : Nat) : SEClassT :=
  { chain := tag :: C.chain, iface := assignTable C.iface iface }

/-- A chain of `extend` calls applied left to right. -/
def chainExtend (C : SEClassT) : List (List (String × NormRule) × Nat) → SEClassT
  | [] => C
  | e :: rest => chainExtend (extendEventClass C e.1 e.2) rest

/-- The base `SyntheticEvent` class. -/
def SyntheticEventClass : SEClassT :=
  { chain := [0], iface := EventInterface }

/-- A synthetic-event instance: identity (for observing slot reuse), its
constructor class, the constructor-set references, the normalized fields
written by the descriptor-table loop (an own-property map), the three
swappable zero-argument predicates (modelled by the Bool they constantly
return), and the host-filled dispatch bookkeeping slots. -/
structure SEInstance where
  instId : Nat
  cls : SEClassT
  dispatchConfig : JSValue
  targetInst : JSValue
  nativeEvent : Option NativeEvt
  fields : List (String × JSValue)
  isDefaultPrevented : Bool
  isPropagationStopped : Bool
  isPersistent : Bool
  dispatchListeners : JSValue
  dispatchInstances : JSValue

/-- A brand-new instance as produced by `new EventConstructor` before the
constructor body runs: no own properties, prototype defaults for the
predicates. -/
def freshInstance (C : SEClassT) (id : Nat) : SEInstance :=
  { instId := id, cls := C, dispatchConfig := .undefined, targetInst := .undefined,
    nativeEvent := none, fields := [], isDefaultPrevented := false,
    isPropagationStopped := false, isPersistent := false,
    dispatchListeners := .undefined, dispatchInstances := .undefined }

/-- One iteration of the constructor's descriptor loop: a function rule is
applied to the native event; a `null` rule binds `target` to the explicit
target marker and copies any other field verbatim from the native event. -/
def applyRule (name : String) (r : NormRule) (ne : Option NativeEvt) (net : JSValue) :
    Except String JSValue :=
  match r with
  | .fn f => f ne
  | .copy => if name = "target" then .ok net else nativeGet ne name

/-- The constructor's `for (propName in Interface)` loop: apply each own
entry of the descriptor table in order, writing the result onto the
instance's own properties. -/
def populateFields : List (String × NormRule) → List (String × JSValue) →
    Option NativeEvt → JSValue → Except String (List (String × JSValue))
  | [], fs, _, _ => .ok fs
  | (name, r) :: rest, fs, ne, net =>
    match applyRule name r ne net with
    | .ok v => populateFields rest (setEntry fs name v) ne net
    | .error m => .error m

/-- The `SyntheticEvent` constructor body run on an instance (fresh or
reused from the pool): store the three references, run the descriptor loop
of the instance's own class (`this.constructor.Interface`), then compute the
default-prevention state — the native `defaultPrevented` when loosely
non-null, else `nativeEvent.returnValue === false` — bind
`isDefaultPrevented` to the corresponding constant predicate and
`isPropagationStopped` to always-false.  Property reads through a null
native event fail (a JS TypeError); a failed construction's partially
mutated instance is unreachable in the source, so only the error is
returned. -/
def constructOn (inst : SEInstance) (dc ti : JSValue) (ne : Option NativeEvt)
    (net : JSValue) : Except String SEInstance :=
  let inst1 : SEInstance :=
    { inst with dispatchConfig := dc, targetInst := ti, nativeEvent := ne }
  match populateFields inst1.cls.iface inst1.fields ne net with
  | .error m => .error m
  | .ok fs =>
    match nativeGet ne "defaultPrevented" with
    | .error m => .error m
    | .ok dpv =>
      match (if isNullish dpv then
               (nativeGet ne "returnValue").map (fun rv => JSValue.bool (rv = .bool false))
             else .ok dpv) with
      | .error m => .error m
      | .ok computed =>
        .ok { inst1 with
              fields := fs,
              isDefaultPrevented := truthy computed,
              isPropagationStopped := false }

/-- `preventDefault()`: set the own `defaultPrevented` property to true;
return early if no native event is attached; otherwise call the native
`preventDefault` when present, else (the `typeof !== 'unknown'` legacy guard
always passes in a standard engine) set the legacy `returnValue` field, and
finally bind `isDefaultPrevented` to always-true. -/
def preventDefault (e : SEInstance) : SEInstance :=
  let e1 : SEInstance :=
    { e with fields := setEntry e.fields "defaultPrevented" (.bool true) }
  match e1.nativeEvent with
  | none => e1
  | some ev =>
    let ev' :=
      if ev.hasPreventDefault then { ev with preventDefaultCalled := true }
      else if jsTypeof (getFieldD ev "returnValue") ≠ "unknown" then
        { ev with fields := setEntry ev.fields "returnValue" (.bool false) }
      else ev
    { e1 with nativeEvent := some ev', isDefaultPrevented := true }

/-- `stopPropagation()`: return early if no native event is attached;
otherwise call the native `stopPropagation` when present, else (the
`typeof !== 'unknown'` legacy guard always passes in a standard engine) set
the legacy `cancelBubble` field, and finally bind `isPropagationStopped` to
always-true. -/
def stopPropagation (e : SEInstance) : SEInstance :=
  match e.nativeEvent with
  | none => e
  | some ev =>
    let ev' :=
      if ev.hasStopPropagation then { ev with stopPropagationCalled := true }
      else if jsTypeof (getFieldD ev "cancelBubble") ≠ "unknown" then
        { ev with fields := setEntry ev.fields "cancelBubble" (.bool true) }
      else ev
    { e with nativeEvent := some ev', isPropagationStopped := true }

/-- `persist()`: bind `isPersistent` to always-true. -/
def persist (e : SEInstance) : SEInstance :=
  { e with isPersistent := true }

/-- Write `null` over every descriptor-table property of the instance
(`for (propName in Interface) this[propName] = null`). -/
def nullifyFields : List (String × NormRule) → List (String × JSValue) →
    List (String × JSValue)
  | [], fs => fs
  | (name, _) :: rest, fs => nullifyFields rest (setEntry fs name .null)

/-- `destructor()`: null every descriptor-table field of the instance's own
class, null the constructor-set references and the dispatch bookkeeping, and
reset both query predicates to always-false.  The source does not touch
`isPersistent`. -/
def destructor (e : SEInstance) : SEInstance :=
  { e with
    fields := nullifyFields e.cls.iface e.fields,
    dispatchConfig := .null, targetInst := .null, nativeEvent := none,
    isDefaultPrevented := false, isPropagationStopped := false,
    dispatchListeners := .null, dispatchInstances := .null }

/-- Fixed pool capacity of the source. -/
def EVENT_POOL_SIZE : Nat := 10

/-- Per-class pool state: the free list (head = most recently pushed; the
source's array end, where `push`/`pop` operate, maps to the list head) and a
fresh-identity counter for newly allocated instances. -/
structure PoolState where
  pool : List SEInstance
  nextId : Nat

/-- `getPooledEvent`: pop the most recently released instance when the pool
is non-empty and re-run the constructor on it in place, else allocate a new
instance.  When the constructor throws, the popped instance is lost (it was
already removed from the pool) and the error propagates. -/
def getPooledEvent (C : SEClassT) (st : PoolState) (dc ti : JSValue)
    (ne : Option NativeEvt) (net : JSValue) :
    Except String SEInstance × PoolState :=
  match st.pool with
  | inst :: rest =>
    match constructOn inst dc ti ne net with
    | .ok inst' => (.ok inst', { st with pool := rest })
    | .error m => (.error m, { st with pool := rest })
  | [] =>
    match constructOn (freshInstance C st.nextId) dc ti ne net with
    | .ok inst' => (.ok inst', { st with nextId := st.nextId + 1 })
    | .error m => (.error m, st)

/-- The type-mismatch message of `releasePooledEvent`'s invariant. -/
def releaseErrMsg : String :=
  "Trying to release an event instance into a pool of a different type."

/-- `releasePooledEvent`: fail fast unless the event is an instance of the
releasing class; otherwise run `destructor()` and push the cleared instance
only when the pool is below capacity.  The cleared instance (the caller's
view of the released event) is returned alongside the new pool state. -/
def releasePooledEvent (C : SEClassT) (st : PoolState) (e : SEInstance) :
    Except String SEInstance × PoolState :=
  if instanceOf e.cls C then
    let e' := destructor e
    (.ok e',
     { st with pool :=
        if st.pool.length < EVENT_POOL_SIZE then e' :: st.pool else st.pool })
  else
    (.error releaseErrMsg, st)

/-- One pool operation: an acquisition with its four arguments, or a release
of an arbitrary instance. -/
inductive PoolOp where
  | acq (dc ti : JSValue) (ne : Option NativeEvt) (net : JSValue)
  | rel (e : SEInstance)

/-- The pool-state effect of one operation. -/
def poolStep (C : SEClassT) (st : PoolState) : PoolOp → PoolState
  | .acq dc ti ne net => (getPooledEvent C st dc ti ne net).2
  | .rel e => (releasePooledEvent C st e).2

/-- Run a sequence of pool operations against one class's pool. -/
def runPoolOps (C : SEClassT) : PoolState → List PoolOp → PoolState
  | st, [] => st
  | st, op :: rest => runPoolOps C (poolStep C st op) rest

/-- Observable events of the batching coordinator's run: the restoration
check (recording the `isBatching` flag at the moment `needsStateRestore()`
is queried and the query's answer), the `_flushInteractiveUpdatesImpl()`
call, and the `restoreStateIfNeeded()` call. -/
inductive BEvent where
  | check (flagAtCheck : Bool) (needed : Bool)
  | flush
  | restore
deriving DecidableEq, Repr

/-- The coordinator's process-wide state: the `isBatching` flag and the
trace of observable events emitted so far (appended at the end). -/
structure BatchState where
  isBatching : Bool
  trace : List BEvent
deriving DecidableEq, Repr

/-- Client work handed to the coordinator, deeply embedded so that nesting
of `batchedUpdates` inside the work is expressible: return a value, throw,
sequence two pieces of work, or call `batchedUpdates(fn, bookkeeping)`. -/
inductive Prog : Type where
  | ret (v : Int)
  | thrw (e : Int)
  | seq (p : Prog) (q : Prog)
  | batch (fn : Int → Prog) (bk : Int)

/-- An injected `_batchedUpdatesImpl` strategy: the default pass-through
(`fn(bookkeeping)`), a strategy that ignores `fn` and returns a constant,
and a strategy that throws — enough to exercise an impl that does not return
`fn`'s result and the exit path where the impl itself fails. -/
inductive BUImpl where
  | passthrough
  | constRet (v : Int)
  | constThrow (e : Int)

/-- Number of restoration checks in a trace. -/
def checksIn (t : List BEvent) : Nat :=
  t.countP (fun e => match e with | .check _ _ => true | _ => false)

/-- The interpreter for `Prog` against the batching module.  A `batch` node
is `batchedUpdates(fn, bookkeeping)`: if `isBatching` is already set the
work runs directly; otherwise the flag is set, the injected
`_batchedUpdatesImpl` runs the work, and the `finally` block — on the normal
and the throwing exit alike — clears the flag first and only then queries
`needsStateRestore()` (the external oracle `needs`, indexed by the number of
checks made so far), invoking `_flushInteractiveUpdatesImpl()` and
`restoreStateIfNeeded()` when it answers true. -/
def runBatching (impl : BUImpl) (needs : Nat → Bool) :
    Prog → BatchState → Except Int Int × BatchState
  | .ret v, s => (.ok v, s)
  | .thrw e, s => (.error e, s)
  | .seq p q, s =>
    match runBatching impl needs p s with
    | (.ok _, s1) => runBatching impl needs q s1
    | (.error e, s1) => (.error e, s1)
  | .batch fn bk, s =>
    if s.isBatching then
      runBatching impl needs (fn bk) s
    else
      let s1 : BatchState := { s with isBatching := true }
      let r2 :=
        match impl with
        | .passthrough => runBatching impl needs (fn bk) s1
        | .constRet v => ((.ok v : Except Int Int), s1)
        | .constThrow e => ((.error e : Except Int Int), s1)
      let s3 : BatchState := { r2.2 with isBatching := false }
      let needed := needs (checksIn s3.trace)
      let s4 : BatchState :=
        { s3 with trace := s3.trace ++ [.check s3.isBatching needed] }
      let s5 : BatchState :=
        if needed then { s4 with trace := s4.trace ++ [.flush, .restore] } else s4
      (r2.1, s5)

/-- `batchedUpdates(fn, bookkeeping)` as a `Prog`. -/
def batchedUpdates (fn : Int → Prog) (bk : Int) : Prog :=
  .batch fn bk

theorem lookupEntry_setEntry_self {α : Type} (fs : List (String × α)) (k : String) (v : α) :
    lookupEntry (setEntry fs k v) k = some v := by
  induction fs with
  | nil => simp [setEntry, lookupEntry]
  | cons hd tl ih =>
    obtain ⟨k', v'⟩ := hd
    by_cases h : k' = k
    · simp [setEntry, h, lookupEntry]
    · simp [setEntry, h, lookupEntry, ih]

theorem lookupEntry_setEntry_other {α : Type} (fs : List (String × α)) (k k2 : String)
    (v : α) (h : k ≠ k2) :
    lookupEntry (setEntry fs k v) k2 = lookupEntry fs k2 := by
  induction fs with
  | nil => simp [setEntry, lookupEntry, h]
  | cons hd tl ih =>
    obtain ⟨k', v'⟩ := hd
    by_cases hk : k' = k
    · subst hk
      simp [setEntry, lookupEntry, h]
    · simp only [setEntry, if_neg hk]
      by_cases hk2 : k' = k2
      · simp [lookupEntry, hk2]
      · simp [lookupEntry, hk2, ih]

theorem setEntry_setEntry_same {α : Type} (fs : List (String × α)) (k : String) (v : α) :
    setEntry (setEntry fs k v) k v = setEntry fs k v := by
  induction fs with
  | nil => simp [setEntry]
  | cons hd tl ih =>
    obtain ⟨k', v'⟩ := hd
    by_cases h : k' = k
    · simp [setEntry, h]
    · simp [setEntry, h, ih]

theorem lookupEntry_eq_none_of_not_mem {α : Type} (fs : List (String × α)) (k : String)
    (h : k ∉ fs.map Prod.fst) :
    lookupEntry fs k = none := by
  induction fs with
  | nil => rfl
  | cons hd tl ih =>
    obtain ⟨k', v'⟩ := hd
    simp only [List.map_cons, List.mem_cons] at h
    push_neg at h
    have hne : k' ≠ k := fun hk => h.1 hk.symm
    simp [lookupEntry, hne, ih h.2]

theorem populateFields_preserves (ne : Option NativeEvt) (net : JSValue) :
    ∀ (iface : List (String × NormRule)) (fs fs' : List (String × JSValue)) (k : String),
      k ∉ iface.map Prod.fst →
      populateFields iface fs ne net = .ok fs' →
      lookupEntry fs' k = lookupEntry fs k := by
  intro iface
  induction iface with
  | nil =>
    intro fs fs' k _ h
    simp only [populateFields] at h
    cases h
    rfl
  | cons hd rest ih =>
    intro fs fs' k hk h
    obtain ⟨name, r⟩ := hd
    simp only [List.map_cons, List.mem_cons] at hk
    push_neg at hk
    simp only [populateFields] at h
    rcases ha : applyRule name r ne net with v | v
    · rw [ha] at h; cases h
    · rw [ha] at h
      have := ih (setEntry fs name v) fs' k hk.2 h
      rw [this, lookupEntry_setEntry_other fs name k v (fun hn => hk.1 hn.symm)]

theorem populateFields_mem (ne : Option NativeEvt) (net : JSValue) :
    ∀ (iface : List (String × NormRule)) (fs fs' : List (String × JSValue)),
      (iface.map Prod.fst).Nodup →
      populateFields iface fs ne net = .ok fs' →
      ∀ p ∈ iface, ∃ v, applyRule p.1 p.2 ne net = .ok v ∧ lookupEntry fs' p.1 = some v := by
  intro iface
  induction iface with
  | nil => intro fs fs' _ _ p hp; cases hp
  | cons hd rest ih =>
    intro fs fs' hnd h p hp
    obtain ⟨name, r⟩ := hd
    simp only [List.map_cons, List.nodup_cons] at hnd
    simp only [populateFields] at h
    rcases ha : applyRule name r ne net with m | v
    · rw [ha] at h; cases h
    · rw [ha] at h
      rcases List.mem_cons.mp hp with hph | hpt
      · subst hph
        refine ⟨v, ha, ?_⟩
        have hpre := populateFields_preserves ne net rest (setEntry fs name v) fs' name hnd.1 h
        rw [hpre, lookupEntry_setEntry_self]
      · exact ih (setEntry fs name v) fs' hnd.2 h p hpt

theorem nullifyFields_preserves :
    ∀ (iface : List (String × NormRule)) (fs : List (String × JSValue)) (k : String),
      k ∉ iface.map Prod.fst →
      lookupEntry (nullifyFields iface fs) k = lookupEntry fs k := by
  intro iface
  induction iface with
  | nil => intro fs k _; rfl
  | cons hd rest ih =>
    intro fs k hk
    obtain ⟨name, r⟩ := hd
    simp only [List.map_cons, List.mem_cons] at hk
    push_neg at hk
    simp only [nullifyFields]
    rw [ih (setEntry fs name .null) k hk.2,
      lookupEntry_setEntry_other fs name k .null (fun hn => hk.1 hn.symm)]

theorem nullifyFields_mem :
    ∀ (iface : List (String × NormRule)) (fs : List (String × JSValue)) (k : String),
      k ∈ iface.map Prod.fst →
      lookupEntry (nullifyFields iface fs) k = some .null := by
  intro iface
  induction iface with
  | nil => intro fs k hk; cases hk
  | cons hd rest ih =>
    intro fs k hk
    obtain ⟨name, r⟩ := hd
    simp only [nullifyFields]
    by_cases hmem : k ∈ rest.map Prod.fst
    · exact ih (setEntry fs name .null) k hmem
    · simp only [List.map_cons, List.mem_cons] at hk
      rcases hk with hk | hk
      · subst hk
        rw [nullifyFields_preserves rest (setEntry fs k .null) k hmem,
          lookupEntry_setEntry_self]
      · exact absurd hk hmem

theorem runBatching_state_fixed (impl : BUImpl) (needs : Nat → Bool) :
    ∀ (p : Prog) (s : BatchState), s.isBatching = true →
      (runBatching impl needs p s).2 = s := by
  intro p
  induction p with
  | ret v => intro s _; rfl
  | thrw e => intro s _; rfl
  | seq p q ihp ihq =>
    intro s h
    simp only [runBatching]
    rcases hr : runBatching impl needs p s with ⟨r, s1⟩
    have hs1 : s1 = s := by
      have hh := ihp s h
      rw [hr] at hh
      exact hh
    cases r with
    | ok v =>
      simp only []
      rw [hs1]
      exact ihq s h
    | error e => simpa using hs1
  | batch fn bk ih =>
    intro s h
    simp only [runBatching, h, if_true]
    exact ih bk s h

/-- C1: for every work item `fn`, bookkeeping value and nesting of
`batchedUpdates` calls (and any injected strategy and any answers of the
external `needsStateRestore` oracle), an outermost call appends to the trace
exactly one restoration check — recording that `isBatching` was already
reset to false when the check ran — followed by the flush-then-restore pair
exactly when the oracle answered true, and nothing else: nested calls
contribute no check at all, and the check happens on every exit path since
the work and the strategy may throw.  A call made while already batching
leaves the coordinator state untouched. -/
theorem batchedUpdates_restore_once (impl : BUImpl) (needs : Nat → Bool)
    (fn : Int → Prog) (bk : Int) (s : BatchState) :
    (s.isBatching = false →
      (runBatching impl needs (batchedUpdates fn bk) s).2.trace
        = s.trace ++ BEvent.check false (needs (checksIn s.trace)) ::
            (if needs (checksIn s.trace) then [BEvent.flush, BEvent.restore] else [])
      ∧ (runBatching impl needs (batchedUpdates fn bk) s).2.isBatching = false)
    ∧ (s.isBatching = true →
      (runBatching impl needs (batchedUpdates fn bk) s).2 = s) := by
  constructor
  · intro h
    obtain ⟨sb, st⟩ := s
    have hsb : sb = false := h
    subst hsb
    cases impl with
    | passthrough =>
      have hfix := runBatching_state_fixed BUImpl.passthrough needs (fn bk) ⟨true, st⟩ rfl
      by_cases hn : needs (checksIn st) <;>
        simp [batchedUpdates, runBatching, hfix, hn]
    | constRet v =>
      by_cases hn : needs (checksIn st) <;>
        simp [batchedUpdates, runBatching, hn]
    | constThrow e =>
      by_cases hn : needs (checksIn st) <;>
        simp [batchedUpdates, runBatching, hn]
  · intro h
    have hfix := runBatching_state_fixed impl needs (fn bk) s h
    simp [batchedUpdates, runBatching, h, hfix]

/-- Witness for C1 at a concrete input: the work nests a second
`batchedUpdates` call whose body throws, the thrown error propagates through
the outer work, and still exactly one restoration check (flag already false)
followed by flush and restore is recorded. -/
theorem batchedUpdates_restore_once_witness :
    (runBatching .passthrough (fun _ => true)
        (batchedUpdates (fun b => .seq (.batch (fun x => .thrw x) 5) (.ret b)) 7)
        ⟨false, []⟩).2.trace
      = [BEvent.check false true, BEvent.flush, BEvent.restore]
    ∧ (runBatching .passthrough (fun _ => true)
        (batchedUpdates (fun b => .seq (.batch (fun x => .thrw x) 5) (.ret b)) 7)
        ⟨false, []⟩).2.isBatching = false := by
  have h := (batchedUpdates_restore_once .passthrough (fun _ => true)
      (fun b => .seq (.batch (fun x => .thrw x) 5) (.ret b)) 7 ⟨false, []⟩).1 rfl
  simpa using h

/-- C9 (amended): a nested `batchedUpdates(fn, bookkeeping)` call returns
exactly what running `fn(bookkeeping)` returns, whatever strategy is
injected; an outermost call under the default pass-through strategy returns
the result of `fn(bookkeeping)` (run in the batching state) unchanged.  An
outermost call under an arbitrary injected strategy returns that strategy's
result instead, which need not be `fn`'s result (see the counterexample). -/
theorem batchedUpdates_returns_fn_result (impl : BUImpl) (needs : Nat → Bool)
    (fn : Int → Prog) (bk : Int) (s : BatchState) :
    (s.isBatching = true →
      runBatching impl needs (batchedUpdates fn bk) s
        = runBatching impl needs (fn bk) s)
    ∧ (s.isBatching = false →
      (runBatching .passthrough needs (batchedUpdates fn bk) s).1
        = (runBatching .passthrough needs (fn bk) { s with isBatching := true }).1) := by
  constructor
  · intro h
    simp [batchedUpdates, runBatching, h]
  · intro h
    simp [batchedUpdates, runBatching, h]

/-- Counterexample for C9 as stated: with an injected strategy that ignores
`fn` and returns 42, the outermost `batchedUpdates` call returns 42 while
`fn(bookkeeping)` returns 7, so `batchedUpdates` does not return `fn`'s
result under every injected strategy configuration. -/
theorem batchedUpdates_result_ce :
    (runBatching (.constRet 42) (fun _ => false)
        (batchedUpdates (fun _ => .ret 7) 0) ⟨false, []⟩).1 = .ok 42
    ∧ (runBatching (.constRet 42) (fun _ => false) (Prog.ret 7) ⟨false, []⟩).1 = .ok 7
    ∧ (Except.ok 42 : Except Int Int) ≠ .ok 7 := by
  refine ⟨?_, rfl, ?_⟩
  · simp [batchedUpdates, runBatching]
  · intro h
    rw [Except.ok.injEq] at h
    norm_num at h

/-- Witness for C9's amended theorem at a concrete input: nested call
returns the work's result, and outermost call under the default strategy
returns the work's result. -/
theorem batchedUpdates_returns_fn_result_witness :
    runBatching .passthrough (fun _ => false)
        (batchedUpdates (fun b => .ret b) 3) ⟨true, []⟩
      = runBatching .passthrough (fun _ => false) (Prog.ret 3) ⟨true, []⟩
    ∧ (runBatching .passthrough (fun _ => false)
        (batchedUpdates (fun b => .ret b) 3) ⟨false, []⟩).1
      = (runBatching .passthrough (fun _ => false) (Prog.ret 3) ⟨true, []⟩).1 := by
  exact ⟨(batchedUpdates_returns_fn_result .passthrough (fun _ => false)
      (fun b => .ret b) 3 ⟨true, []⟩).1 rfl,
    (batchedUpdates_returns_fn_result .passthrough (fun _ => false)
      (fun b => .ret b) 3 ⟨false, []⟩).2 rfl⟩

/-- A rule never fails when applied to an actual (non-null) native event;
this is the spec's well-formedness condition on descriptor tables.  Verbatim
copies always satisfy it. -/
def ruleSucceedsOnObjects : NormRule → Prop
  | .copy => True
  | .fn f => ∀ e : NativeEvt, ∃ v, f (some e) = .ok v

/-- Whether an `Except` computation succeeded. -/
def isOkE {ε α : Type} : Except ε α → Bool
  | .ok _ => true
  | .error _ => false

/-- Extract the success value of an `Except` computation, with a default. -/
def getOkE {ε α : Type} (d : α) : Except ε α → α
  | .ok a => a
  | .error _ => d

theorem populateFields_total (ev : NativeEvt) (net : JSValue) :
    ∀ (iface : List (String × NormRule)) (fs : List (String × JSValue)),
      (∀ p ∈ iface, ruleSucceedsOnObjects p.2) →
      ∃ fs', populateFields iface fs (some ev) net = .ok fs' := by
  intro iface
  induction iface with
  | nil => intro fs _; exact ⟨fs, rfl⟩
  | cons hd rest ih =>
    intro fs hwf
    obtain ⟨name, r⟩ := hd
    have hrest : ∀ p ∈ rest, ruleSucceedsOnObjects p.2 :=
      fun p hp => hwf p (List.mem_cons_of_mem _ hp)
    cases r with
    | copy =>
      by_cases ht : name = "target"
      · simp only [populateFields, applyRule, ht, if_true]
        exact ih _ hrest
      · simp only [populateFields, applyRule, if_neg ht, nativeGet]
        exact ih _ hrest
    | fn f =>
      have hr : ∀ e : NativeEvt, ∃ v, f (some e) = .ok v :=
        hwf (name, .fn f) (List.mem_cons_self _ _)
      obtain ⟨v, hv⟩ := hr ev
      simp only [populateFields, applyRule, hv]
      exact ih _ hrest

theorem EventInterface_wellFormed : ∀ p ∈ EventInterface, ruleSucceedsOnObjects p.2 := by
  intro p hp
  simp only [EventInterface, List.mem_cons, List.not_mem_nil, or_false] at hp
  rcases hp with h | h | h | h | h | h | h | h | h <;> subst h <;>
    simp [ruleSucceedsOnObjects, currentTargetRule, timeStampRule, nativeGet]

/-- C2: for every successful construction from a native event, the
default-prevention state is the native `defaultPrevented` property when that
property is loosely non-null, else `returnValue === false`;
`isDefaultPrevented` is bound to the always-true predicate exactly when that
state is (JS-)true, and `isPropagationStopped` is always bound to the
always-false predicate. -/
theorem construct_defaultPrevented_binding (inst : SEInstance) (dc ti net : JSValue)
    (ev : NativeEvt) (i' : SEInstance)
    (h : constructOn inst dc ti (some ev) net = .ok i') :
    i'.isDefaultPrevented
      = truthy (if isNullish (getFieldD ev "defaultPrevented")
                then .bool (getFieldD ev "returnValue" = .bool false)
                else getFieldD ev "defaultPrevented")
    ∧ i'.isPropagationStopped = false := by
  simp only [constructOn, nativeGet] at h
  split at h
  · cases h
  · by_cases hdp : isNullish (getFieldD ev "defaultPrevented") = true
    · simp only [hdp, if_true, Except.map] at h
      injection h with h
      subst h
      simp [hdp]
    · simp only [hdp, if_false, Bool.not_eq_true] at h
      injection h with h
      subst h
      simp [hdp]

/-- A native event with `returnValue: false` and no `defaultPrevented`
property (the legacy default-prevention encoding). -/
def legacyNE : NativeEvt :=
  { fields := [("returnValue", .bool false)], hasPreventDefault := false,
    hasStopPropagation := false, preventDefaultCalled := false,
    stopPropagationCalled := false }

/-- Witness for C2: constructing from a native event with no
`defaultPrevented` property but `returnValue === false` binds
`isDefaultPrevented` to always-true (the legacy fallback is honored), and
`isPropagationStopped` starts always-false. -/
theorem construct_defaultPrevented_binding_witness :
    (getOkE (freshInstance SyntheticEventClass 1)
        (constructOn (freshInstance SyntheticEventClass 1) .null .null
          (some legacyNE) .null)).isDefaultPrevented = true
    ∧ (getOkE (freshInstance SyntheticEventClass 1)
        (constructOn (freshInstance SyntheticEventClass 1) .null .null
          (some legacyNE) .null)).isPropagationStopped = false := by
  have h := construct_defaultPrevented_binding (freshInstance SyntheticEventClass 1)
    .null .null .null legacyNE
    (getOkE (freshInstance SyntheticEventClass 1)
      (constructOn (freshInstance SyntheticEventClass 1) .null .null
        (some legacyNE) .null))
    (by rfl)
  refine ⟨?_, h.2⟩
  rw [h.1]
  rfl

/-- C10: construction reads through the native-event reference
unconditionally (at latest for the `defaultPrevented` probe), so it fails
whenever `nativeEvent` is null, for every descriptor table; and whenever the
native event is an actual object and every function rule of the table is
total on objects, construction succeeds — individual properties may be
absent. -/
theorem construct_native_event_precondition (inst : SEInstance) (dc ti net : JSValue)
    (ev : NativeEvt)
    (hwf : ∀ p ∈ inst.cls.iface, ruleSucceedsOnObjects p.2) :
    isOkE (constructOn inst dc ti none net) = false
    ∧ isOkE (constructOn inst dc ti (some ev) net) = true := by
  constructor
  · rcases hpf : populateFields inst.cls.iface inst.fields none net with m | fs
    · simp [constructOn, hpf, isOkE]
    · simp [constructOn, hpf, nativeGet, isOkE]
  · obtain ⟨fs, hpf⟩ := populateFields_total ev net inst.cls.iface inst.fields hwf
    by_cases hdp : isNullish (getFieldD ev "defaultPrevented") = true <;>
      simp [constructOn, hpf, nativeGet, hdp, Except.map, isOkE]

/-- A native event with no own properties at all. -/
def emptyNE : NativeEvt :=
  { fields := [], hasPreventDefault := false, hasStopPropagation := false,
    preventDefaultCalled := false, stopPropagationCalled := false }

/-- Witness for C10: with the base class's table, construction from a null
native event fails and construction from a property-less native-event
object succeeds. -/
theorem construct_native_event_precondition_witness :
    isOkE (constructOn (freshInstance SyntheticEventClass 0) .null .null none .null) = false
    ∧ isOkE (constructOn (freshInstance SyntheticEventClass 0) .null .null
        (some emptyNE) .null) = true :=
  construct_native_event_precondition (freshInstance SyntheticEventClass 0)
    .null .null .null emptyNE EventInterface_wellFormed

theorem jsTypeof_ne_unknown (v : JSValue) : jsTypeof v ≠ "unknown" := by
  cases v <;> simp [jsTypeof]

/-- An instance whose native event is absent (as a persisted or destructed
instance is). -/
def detachedInst : SEInstance :=
  { instId := 0, cls := SyntheticEventClass, dispatchConfig := .null,
    targetInst := .null, nativeEvent := none, fields := [],
    isDefaultPrevented := false, isPropagationStopped := false,
    isPersistent := false, dispatchListeners := .null,
    dispatchInstances := .null }

/-- Counterexample for C3 as stated: on an instance with no native event,
two `preventDefault()` calls set the internal `defaultPrevented` property to
true but leave `isDefaultPrevented` bound to always-false — the early
return skips the predicate flip, so `isDefaultPrevented()` does not return
true as the claim asserts. -/
theorem preventDefault_detached_ce :
    (preventDefault (preventDefault detachedInst)).isDefaultPrevented = false
    ∧ lookupEntry (preventDefault (preventDefault detachedInst)).fields
        "defaultPrevented" = some (.bool true) := by
  constructor <;> rfl

/-- C3 (amended): `preventDefault()` never errors, always sets the internal
`defaultPrevented` property to true, and is idempotent.  When a native event
is attached it binds `isDefaultPrevented` to always-true and either calls
the native prevention mechanism or sets the legacy `returnValue` fallback;
when no native event is attached it returns after setting the flag, leaving
the `isDefaultPrevented` predicate (and everything else but the flag)
unchanged. -/
theorem preventDefault_spec (e : SEInstance) (ev : NativeEvt) :
    lookupEntry (preventDefault e).fields "defaultPrevented" = some (.bool true)
    ∧ (e.nativeEvent = none →
        (preventDefault e).isDefaultPrevented = e.isDefaultPrevented
        ∧ (preventDefault e).nativeEvent = none)
    ∧ (e.nativeEvent = some ev →
        (preventDefault e).isDefaultPrevented = true
        ∧ (ev.hasPreventDefault = true →
            (preventDefault e).nativeEvent
              = some { ev with preventDefaultCalled := true })
        ∧ (ev.hasPreventDefault = false →
            (preventDefault e).nativeEvent
              = some { ev with fields := setEntry ev.fields "returnValue" (.bool false) }))
    ∧ preventDefault (preventDefault e) = preventDefault e := by
  refine ⟨?_, ?_, ?_, ?_⟩
  · rcases hne : e.nativeEvent with _ | ev' <;>
      simp [preventDefault, hne, lookupEntry_setEntry_self]
  · intro hne
    simp [preventDefault, hne]
  · intro hne
    by_cases hpd : ev.hasPreventDefault = true
    · simp [preventDefault, hne, hpd]
    · simp only [Bool.not_eq_true] at hpd
      simp [preventDefault, hne, hpd, jsTypeof_ne_unknown]
  · rcases hne : e.nativeEvent with _ | ev'
    · simp [preventDefault, hne, setEntry_setEntry_same]
    · by_cases hpd : ev'.hasPreventDefault = true
      · simp [preventDefault, hne, hpd, setEntry_setEntry_same]
      · simp only [Bool.not_eq_true] at hpd
        simp [preventDefault, hne, hpd, jsTypeof_ne_unknown,
          setEntry_setEntry_same, getFieldD, lookupEntry_setEntry_self]

/-- Witness for C3's amended theorem: a concrete instance with an attached
native event lacking the native `preventDefault` method gets the legacy
`returnValue` fallback set and its predicate flipped, and a concrete
detached instance keeps its always-false predicate. -/
theorem preventDefault_spec_witness :
    ((preventDefault { detachedInst with nativeEvent := some legacyNE }).isDefaultPrevented
        = true)
    ∧ (preventDefault { detachedInst with nativeEvent := some legacyNE }).nativeEvent
        = some { legacyNE with fields := setEntry legacyNE.fields "returnValue" (.bool false) }
    ∧ (preventDefault detachedInst).isDefaultPrevented = detachedInst.isDefaultPrevented := by
  have h1 := preventDefault_spec { detachedInst with nativeEvent := some legacyNE } legacyNE
  have h2 := preventDefault_spec detachedInst legacyNE
  have hs := h1.2.2.1 rfl
  exact ⟨hs.1, hs.2.2 rfl, (h2.2.1 rfl).1⟩

/-- Counterexample for C4 as stated: on an instance with no native event,
`stopPropagation()` returns without flipping anything, so
`isPropagationStopped()` still returns false afterwards, contrary to the
claim's unconditional flip. -/
theorem stopPropagation_detached_ce :
    (stopPropagation (stopPropagation detachedInst)).isPropagationStopped = false := rfl

/-- C4 (amended): `stopPropagation()` never errors and is idempotent.  When
a native event is attached it binds `isPropagationStopped` to always-true
and either calls the native stop-propagation mechanism or sets the legacy
`cancelBubble` fallback; when no native event is attached it no-ops
entirely, leaving the instance (in particular its `isPropagationStopped`
predicate) unchanged. -/
theorem stopPropagation_spec (e : SEInstance) (ev : NativeEvt) :
    (e.nativeEvent = none → stopPropagation e = e)
    ∧ (e.nativeEvent = some ev →
        (stopPropagation e).isPropagationStopped = true
        ∧ (ev.hasStopPropagation = true →
            (stopPropagation e).nativeEvent
              = some { ev with stopPropagationCalled := true })
        ∧ (ev.hasStopPropagation = false →
            (stopPropagation e).nativeEvent
              = some { ev with fields := setEntry ev.fields "cancelBubble" (.bool true) }))
    ∧ stopPropagation (stopPropagation e) = stopPropagation e := by
  refine ⟨?_, ?_, ?_⟩
  · intro hne
    simp [stopPropagation, hne]
  · intro hne
    by_cases hsp : ev.hasStopPropagation = true
    · simp [stopPropagation, hne, hsp]
    · simp only [Bool.not_eq_true] at hsp
      simp [stopPropagation, hne, hsp, jsTypeof_ne_unknown]
  · rcases hne : e.nativeEvent with _ | ev'
    · simp [stopPropagation, hne]
    · by_cases hsp : ev'.hasStopPropagation = true
      · simp [stopPropagation, hne, hsp]
      · simp only [Bool.not_eq_true] at hsp
        simp [stopPropagation, hne, hsp, jsTypeof_ne_unknown,
          setEntry_setEntry_same, getFieldD, lookupEntry_setEntry_self]

/-- Witness for C4's amended theorem: a concrete instance with an attached
method-less native event gets `cancelBubble` set and the predicate flipped;
a concrete detached instance is unchanged. -/
theorem stopPropagation_spec_witness :
    ((stopPropagation { detachedInst with nativeEvent := some legacyNE }).isPropagationStopped
        = true)
    ∧ (stopPropagation { detachedInst with nativeEvent := some legacyNE }).nativeEvent
        = some { legacyNE with fields := setEntry legacyNE.fields "cancelBubble" (.bool true) }
    ∧ stopPropagation detachedInst = detachedInst := by
  have h1 := stopPropagation_spec { detachedInst with nativeEvent := some legacyNE } legacyNE
  have h2 := stopPropagation_spec detachedInst legacyNE
  have hs := h1.2.1 rfl
  exact ⟨hs.1, hs.2.2 rfl, h2.1 rfl⟩

/-- Counterexample for C5 as stated: releasing a persisted instance
succeeds, yet the released instance's persistence predicate is still bound
to always-true — `destructor()` never resets `isPersistent`, so the
persistence predicate is not cleared to its default. -/
theorem releasePooledEvent_persistence_ce :
    isOkE (releasePooledEvent SyntheticEventClass { pool := [], nextId := 1 }
        (persist detachedInst)).1 = true
    ∧ (getOkE detachedInst
        (releasePooledEvent SyntheticEventClass { pool := [], nextId := 1 }
          (persist detachedInst)).1).isPersistent = true := by
  constructor <;> rfl

/-- C5 (amended): `release` on a value that is not an instance of the
class fails with the type-mismatch error; on an instance of the class it
succeeds, and the released instance has every descriptor-table field
nulled, its `dispatchConfig`, target marker, `nativeEvent` and dispatch
bookkeeping cleared, and both query predicates reset to always-false —
but its persistence predicate keeps whatever binding it had (the
destructor does not reset `isPersistent`). -/
theorem releasePooledEvent_spec (C : SEClassT) (st : PoolState) (e : SEInstance) :
    (instanceOf e.cls C = false →
      (releasePooledEvent C st e).1 = .error releaseErrMsg)
    ∧ (instanceOf e.cls C = true →
      (releasePooledEvent C st e).1 = .ok (destructor e)
      ∧ (∀ p ∈ e.cls.iface, lookupEntry (destructor e).fields p.1 = some .null)
      ∧ (destructor e).dispatchConfig = .null
      ∧ (destructor e).targetInst = .null
      ∧ (destructor e).nativeEvent = none
      ∧ (destructor e).isDefaultPrevented = false
      ∧ (destructor e).isPropagationStopped = false
      ∧ (destructor e).dispatchListeners = .null
      ∧ (destructor e).dispatchInstances = .null
      ∧ (destructor e).isPersistent = e.isPersistent) := by
  constructor
  · intro h
    simp [releasePooledEvent, h]
  · intro h
    refine ⟨by simp [releasePooledEvent, h], ?_, rfl, rfl, rfl, rfl, rfl, rfl, rfl, rfl⟩
    intro p hp
    exact nullifyFields_mem e.cls.iface e.fields p.1 (List.mem_map_of_mem Prod.fst hp)

/-- Witness for C5's amended theorem: releasing a base-class instance into
an extended class's pool fails with the type-mismatch error; releasing it
into its own class's pool yields the destructed instance, whose `type`
field is null. -/
theorem releasePooledEvent_spec_witness :
    (releasePooledEvent (extendEventClass SyntheticEventClass [] 1)
        { pool := [], nextId := 0 } detachedInst).1 = .error releaseErrMsg
    ∧ (releasePooledEvent SyntheticEventClass { pool := [], nextId := 0 } detachedInst).1
        = .ok (destructor detachedInst)
    ∧ lookupEntry (destructor detachedInst).fields "type" = some .null := by
  have h1 := (releasePooledEvent_spec (extendEventClass SyntheticEventClass [] 1)
      { pool := [], nextId := 0 } detachedInst).1 rfl
  have h2 := (releasePooledEvent_spec SyntheticEventClass
      { pool := [], nextId := 0 } detachedInst).2 rfl
  exact ⟨h1, h2.1, h2.2.1 ("type", NormRule.copy) (List.Mem.head _)⟩

theorem getPooledEvent_pool_shrinks (C : SEClassT) (st : PoolState) (dc ti : JSValue)
    (ne : Option NativeEvt) (net : JSValue) :
    (getPooledEvent C st dc ti ne net).2.pool.length ≤ st.pool.length := by
  rcases hp : st.pool with _ | ⟨i, rest⟩
  · simp only [getPooledEvent, hp]
    rcases hc : constructOn (freshInstance C st.nextId) dc ti ne net with m | i' <;>
      simp [hp]
  · simp only [getPooledEvent, hp]
    rcases hc : constructOn i dc ti ne net with m | i' <;> simp [hp]

theorem releasePooledEvent_pool_bounded (C : SEClassT) (st : PoolState) (e : SEInstance)
    (h : st.pool.length ≤ EVENT_POOL_SIZE) :
    (releasePooledEvent C st e).2.pool.length ≤ EVENT_POOL_SIZE := by
  by_cases hi : instanceOf e.cls C = true
  · simp only [releasePooledEvent, hi, if_true]
    by_cases hf : st.pool.length < EVENT_POOL_SIZE
    · simp only [hf, if_true, List.length_cons]
      omega
    · simp only [hf, if_false]
      exact h
  · simp [releasePooledEvent, hi, h]

/-- C6: under every sequence of acquire and release operations the pool's
size stays at most the fixed capacity 10, and a release against a pool
already holding 10 instances leaves the pool state unchanged (the instance
is discarded instead of growing the pool). -/
theorem eventPool_bounded (C : SEClassT) (ops : List PoolOp) (st : PoolState)
    (e : SEInstance) (hlen : st.pool.length ≤ EVENT_POOL_SIZE) :
    (runPoolOps C st ops).pool.length ≤ EVENT_POOL_SIZE
    ∧ (st.pool.length = EVENT_POOL_SIZE → instanceOf e.cls C = true →
        (releasePooledEvent C st e).2 = st) := by
  constructor
  · induction ops generalizing st with
    | nil => exact hlen
    | cons op rest ih =>
      refine ih (poolStep C st op) ?_
      cases op with
      | acq dc ti ne net =>
        exact le_trans (getPooledEvent_pool_shrinks C st dc ti ne net) hlen
      | rel e2 => exact releasePooledEvent_pool_bounded C st e2 hlen
  · intro hfull hinst
    have hnlt : ¬ st.pool.length < EVENT_POOL_SIZE := by omega
    simp [releasePooledEvent, hinst, hnlt]

/-- Witness for C6: a pool already at capacity 10 stays at 10 under
further releases, and a release into the full pool leaves the state
unchanged. -/
theorem eventPool_bounded_witness :
    (runPoolOps SyntheticEventClass
        { pool := List.replicate EVENT_POOL_SIZE detachedInst, nextId := 0 }
        [PoolOp.rel detachedInst, PoolOp.rel detachedInst]).pool.length ≤ EVENT_POOL_SIZE
    ∧ (releasePooledEvent SyntheticEventClass
        { pool := List.replicate EVENT_POOL_SIZE detachedInst, nextId := 0 }
        detachedInst).2
      = { pool := List.replicate EVENT_POOL_SIZE detachedInst, nextId := 0 } := by
  have h := eventPool_bounded SyntheticEventClass
    [PoolOp.rel detachedInst, PoolOp.rel detachedInst]
    { pool := List.replicate EVENT_POOL_SIZE detachedInst, nextId := 0 }
    detachedInst (by simp)
  exact ⟨h.1, h.2 (by simp) rfl⟩

theorem lookupEntry_assignTable (k : String) :
    ∀ (d b : List (String × NormRule)), (d.map Prod.fst).Nodup →
      lookupEntry (assignTable b d) k
        = (lookupEntry d k).orElse (fun _ => lookupEntry b k) := by
  intro d
  induction d with
  | nil =>
    intro b _
    rcases hb : lookupEntry b k with _ | v <;> simp [assignTable, lookupEntry, hb, Option.orElse]
  | cons hd rest ih =>
    intro b hnd
    obtain ⟨k0, v0⟩ := hd
    simp only [List.map_cons, List.nodup_cons] at hnd
    have hfold : assignTable b ((k0, v0) :: rest) = assignTable (setEntry b k0 v0) rest := rfl
    rw [hfold, ih (setEntry b k0 v0) hnd.2]
    by_cases hk : k0 = k
    · subst hk
      rw [lookupEntry_eq_none_of_not_mem rest k0 hnd.1, lookupEntry_setEntry_self]
      simp [lookupEntry, Option.orElse]
    · rw [lookupEntry_setEntry_other b k0 k v0 hk]
      simp [lookupEntry, hk]

/-- The declared tables of a chain of extensions, merged right to left: the
most recently declared (most derived) table that declares a key wins; keys
declared by no table in the list resolve to `none`. -/
def mergedLookup : List (List (String × NormRule)) → String → Option NormRule
  | [], _ => none
  | t :: rest, k => (mergedLookup rest k).orElse (fun _ => lookupEntry t k)

theorem chainExtend_iface_foldl :
    ∀ (exts : List (List (String × NormRule) × Nat)) (C : SEClassT),
      (chainExtend C exts).iface
        = List.foldl (fun acc p => assignTable acc p.1) C.iface exts := by
  intro exts
  induction exts with
  | nil => intro C; rfl
  | cons hd rest ih =>
    intro C
    simp only [chainExtend, List.foldl_cons]
    exact ih (extendEventClass C hd.1 hd.2)

theorem chainExtend_append :
    ∀ (exts : List (List (String × NormRule) × Nat)) (C : SEClassT)
      (d : List (String × NormRule)) (t : Nat),
      chainExtend C (exts ++ [(d, t)]) = extendEventClass (chainExtend C exts) d t := by
  intro exts
  induction exts with
  | nil => intro C d t; rfl
  | cons hd rest ih =>
    intro C d t
    simp only [List.cons_append, chainExtend]
    exact ih (extendEventClass C hd.1 hd.2) d t

theorem chainExtend_lookup (k : String) :
    ∀ (exts : List (List (String × NormRule) × Nat)) (C : SEClassT),
      (∀ p ∈ exts, ((p.1.map Prod.fst)).Nodup) →
      lookupEntry (chainExtend C exts).iface k
        = (mergedLookup (exts.map Prod.fst) k).orElse
            (fun _ => lookupEntry C.iface k) := by
  intro exts
  induction exts with
  | nil =>
    intro C _
    rcases hb : lookupEntry C.iface k with _ | v <;>
      simp [chainExtend, mergedLookup, hb, Option.orElse]
  | cons hd rest ih =>
    intro C hnd
    have hstep : lookupEntry (chainExtend (extendEventClass C hd.1 hd.2) rest).iface k
        = (mergedLookup (rest.map Prod.fst) k).orElse
            (fun _ => lookupEntry (assignTable C.iface hd.1) k) :=
      ih (extendEventClass C hd.1 hd.2) (fun p hp => hnd p (List.mem_cons_of_mem _ hp))
    simp only [chainExtend, List.map_cons, mergedLookup]
    rw [hstep, lookupEntry_assignTable k hd.1 C.iface (hnd hd (List.mem_cons_self _ _))]
    rcases mergedLookup (rest.map Prod.fst) k with _ | v <;> simp [Option.orElse]

/-- C7: for every chain of extensions from a base class, the resulting
class's effective descriptor table is the ordered left-to-right merge of
the ancestor tables (the fold of `Object.assign` over the chain); a merged
table resolves each name to the derived table's entry when the derived
table declares it and to the base entry otherwise (derived entries shadow
base entries); resolution through a whole chain picks the most derived
declaring table; and a class produced by `extend` supports further
extension under the same merge rule. -/
theorem extend_merge_spec (C : SEClassT)
    (exts : List (List (String × NormRule) × Nat))
    (d b : List (String × NormRule)) (t : Nat) (k : String)
    (hnds : ∀ p ∈ exts, ((p.1.map Prod.fst)).Nodup)
    (hnd : (d.map Prod.fst).Nodup) :
    (chainExtend C exts).iface
      = List.foldl (fun acc p => assignTable acc p.1) C.iface exts
    ∧ lookupEntry (assignTable b d) k
        = (lookupEntry d k).orElse (fun _ => lookupEntry b k)
    ∧ lookupEntry (chainExtend C exts).iface k
        = (mergedLookup (exts.map Prod.fst) k).orElse
            (fun _ => lookupEntry C.iface k)
    ∧ chainExtend C (exts ++ [(d, t)]) = extendEventClass (chainExtend C exts) d t :=
  ⟨chainExtend_iface_foldl exts C,
   lookupEntry_assignTable k d b hnd,
   chainExtend_lookup k exts C hnds,
   chainExtend_append exts C d t⟩

/-- Witness for C7 at a concrete two-step chain: the key "foo" declared by
both extension tables resolves to the second (more derived) table's entry,
a base key resolves to the base table, and the chain equals the single
extension of the one-step chain. -/
theorem extend_merge_spec_witness :
    lookupEntry (chainExtend SyntheticEventClass
        [([("foo", NormRule.copy)], 1),
         ([("foo", NormRule.fn currentTargetRule)], 2)]).iface "foo"
      = some (NormRule.fn currentTargetRule)
    ∧ chainExtend SyntheticEventClass
        [([("foo", NormRule.copy)], 1), ([("foo", NormRule.fn currentTargetRule)], 2)]
      = extendEventClass (chainExtend SyntheticEventClass [([("foo", NormRule.copy)], 1)])
          [("foo", NormRule.fn currentTargetRule)] 2 := by
  have h := extend_merge_spec SyntheticEventClass
    [([("foo", NormRule.copy)], 1)]
    [("foo", NormRule.fn currentTargetRule)] [] 2 "foo"
    (by intro p hp; simp only [List.mem_singleton] at hp; subst hp; simp)
    (by simp)
  refine ⟨?_, h.2.2.2⟩
  have h2 := extend_merge_spec SyntheticEventClass
    [([("foo", NormRule.copy)], 1), ([("foo", NormRule.fn currentTargetRule)], 2)]
    [] [] 0 "foo"
    (by
      intro p hp
      simp only [List.mem_cons, List.not_mem_nil, or_false, List.mem_singleton] at hp
      rcases hp with hp | hp <;> subst hp <;> simp)
    (by simp)
  rw [h2.2.2.1]
  rfl

theorem constructOn_ok_projections (inst : SEInstance) (dc ti : JSValue)
    (ne : Option NativeEvt) (net : JSValue) (i' : SEInstance)
    (h : constructOn inst dc ti ne net = .ok i') :
    i'.instId = inst.instId ∧ i'.cls = inst.cls
    ∧ populateFields inst.cls.iface inst.fields ne net = .ok i'.fields := by
  simp only [constructOn] at h
  rcases hfs : populateFields inst.cls.iface inst.fields ne net with m | fs <;>
    rw [hfs] at h
  · cases h
  · rcases hdp : nativeGet ne "defaultPrevented" with m | dpv <;> rw [hdp] at h
    · cases h
    · by_cases hn : isNullish dpv = true
      · rcases hrv : nativeGet ne "returnValue" with m | rv <;>
          simp only [hn, if_true, hrv, Except.map] at h
        · cases h
        · injection h with h
          subst h
          exact ⟨rfl, rfl, rfl⟩
      · simp only [if_neg hn] at h
        injection h with h
        subst h
        exact ⟨rfl, rfl, rfl⟩

theorem getPooledEvent_pool_lt (C : SEClassT) (st : PoolState) (dc ti : JSValue)
    (ne : Option NativeEvt) (net : JSValue) (h : st.pool.length ≤ EVENT_POOL_SIZE) :
    (getPooledEvent C st dc ti ne net).2.pool.length < EVENT_POOL_SIZE := by
  rcases hp : st.pool with _ | ⟨i, rest⟩
  · simp only [getPooledEvent, hp]
    rcases hc : constructOn (freshInstance C st.nextId) dc ti ne net with m | i' <;>
      simp [hp, EVENT_POOL_SIZE]
  · rw [hp] at h
    simp only [List.length_cons] at h
    simp only [getPooledEvent, hp]
    rcases hc : constructOn i dc ti ne net with m | i' <;> simp <;> omega

theorem getPooledEvent_from_head (C : SEClassT) (st : PoolState) (i0 : SEInstance)
    (rest : List SEInstance) (dc ti : JSValue) (ne : Option NativeEvt) (net : JSValue)
    (hp : st.pool = i0 :: rest) (e2 : SEInstance)
    (h : (getPooledEvent C st dc ti ne net).1 = .ok e2) :
    constructOn i0 dc ti ne net = .ok e2 := by
  simp only [getPooledEvent, hp] at h
  rcases hc : constructOn i0 dc ti ne net with m | i' <;> rw [hc] at h <;> simp at h
  rw [h]

/-- C8: starting from any pool satisfying the capacity invariant, an
acquire, release, acquire sequence hands out on the second acquire the same
underlying slot the first acquire returned — same instance identity — and
every descriptor-table field of the reused instance equals the value
derived from the second call's arguments, so no field value from the first
construction remains observable in the descriptor-table fields.  (After an
acquire the pool is strictly below capacity, so the immediate release
always pushes and the pool is non-empty at the second acquire.) -/
theorem pool_reuse_spec (C : SEClassT) (st0 : PoolState)
    (dc1 ti1 net1 dc2 ti2 net2 : JSValue) (ne1 ne2 : Option NativeEvt)
    (e1 e2 : SEInstance)
    (h1 : (getPooledEvent C st0 dc1 ti1 ne1 net1).1 = .ok e1)
    (hst0 : st0.pool.length ≤ EVENT_POOL_SIZE)
    (hinst : instanceOf e1.cls C = true)
    (h2 : (getPooledEvent C
            (releasePooledEvent C (getPooledEvent C st0 dc1 ti1 ne1 net1).2 e1).2
            dc2 ti2 ne2 net2).1 = .ok e2)
    (hnd : (e1.cls.iface.map Prod.fst).Nodup) :
    e2.instId = e1.instId
    ∧ ∀ p ∈ e1.cls.iface, ∃ v, applyRule p.1 p.2 ne2 net2 = .ok v
        ∧ lookupEntry e2.fields p.1 = some v := by
  have hlen := getPooledEvent_pool_lt C st0 dc1 ti1 ne1 net1 hst0
  have hrel : (releasePooledEvent C (getPooledEvent C st0 dc1 ti1 ne1 net1).2 e1).2.pool
      = destructor e1 :: (getPooledEvent C st0 dc1 ti1 ne1 net1).2.pool := by
    simp [releasePooledEvent, hinst, hlen]
  have hc : constructOn (destructor e1) dc2 ti2 ne2 net2 = .ok e2 :=
    getPooledEvent_from_head C _ (destructor e1) _ dc2 ti2 ne2 net2 hrel e2 h2
  have hproj := constructOn_ok_projections (destructor e1) dc2 ti2 ne2 net2 e2 hc
  refine ⟨hproj.1, ?_⟩
  intro p hp
  exact populateFields_mem ne2 net2 e1.cls.iface (destructor e1).fields e2.fields
    hnd hproj.2.2 p hp

/-- Bindings for the concrete C8 witness scenario: acquire from an empty
base-class pool, release, then acquire with different arguments. -/
def w8st0 : PoolState := { pool := [], nextId := 0 }

/-- First acquired instance of the C8 witness scenario. -/
def w8e1 : SEInstance :=
  getOkE detachedInst
    (getPooledEvent SyntheticEventClass w8st0 .null .null (some emptyNE) .null).1

/-- Pool state after releasing the first instance in the C8 witness
scenario. -/
def w8st2 : PoolState :=
  (releasePooledEvent SyntheticEventClass
    (getPooledEvent SyntheticEventClass w8st0 .null .null (some emptyNE) .null).2 w8e1).2

/-- Second acquired instance of the C8 witness scenario, constructed with
different arguments. -/
def w8e2 : SEInstance :=
  getOkE detachedInst
    (getPooledEvent SyntheticEventClass w8st2 .null .null (some legacyNE) (.str "t2")).1

/-- Witness for C8: in the concrete scenario the second acquire returns
the first acquire's slot (same identity) and its `target` field is bound to
the second call's target marker. -/
theorem pool_reuse_spec_witness :
    w8e2.instId = w8e1.instId
    ∧ lookupEntry w8e2.fields "target" = some (JSValue.str "t2") := by
  have h := pool_reuse_spec SyntheticEventClass w8st0 .null .null .null .null .null
    (.str "t2") (some emptyNE) (some legacyNE) w8e1 w8e2 rfl (by decide) rfl rfl
    (by decide)
  refine ⟨h.1, ?_⟩
  obtain ⟨v, hv, hl⟩ := h.2 ("target", NormRule.copy) (List.Mem.tail _ (List.Mem.head _))
  have hv2 : Except.ok (JSValue.str "t2") = Except.ok v := hv
  injection hv2 with hveq
  rw [← hveq] at hl
  exact hl
